import Mathlib

/-!
Verification of the ZEN-garden optimization-model assembly and solve engine.

This file gives a shallow embedding of the constraint-rule functions, the
rolling-horizon solve driver, the transport-technology input handling and the
results persistence layer of the repository, and proves (or refutes) the
specified properties about them.  Numeric quantities are modelled as rationals;
pyomo constraint expressions are modelled as syntactic affine constraints over
an explicit variable type, with a satisfaction relation evaluated under a
variable assignment.
-/

set_option linter.unusedVariables false

/-! ### Affine expressions and constraints (model of pyomo expressions) -/

/-- An affine expression over variables `V`: a list of (coefficient, variable)
terms plus a constant. -/
structure AffExpr (V : Type) where
  terms : List (ℚ × V)
  const : ℚ
deriving DecidableEq

/-- Evaluate an affine expression under an assignment of rationals to
variables. -/
def AffExpr.eval {V : Type} (x : V → ℚ) (e : AffExpr V) : ℚ :=
  (e.terms.map (fun p => p.1 * x p.2)).sum + e.const

/-- The zero expression. -/
def AffExpr.zero {V : Type} : AffExpr V :=
  { terms := [], const := 0 }

/-- A single variable as an expression. -/
def AffExpr.ofVar {V : Type} (v : V) : AffExpr V :=
  { terms := [(1, v)], const := 0 }

/-- Sum of two affine expressions. -/
def AffExpr.add {V : Type} (a b : AffExpr V) : AffExpr V :=
  { terms := a.terms ++ b.terms, const := a.const + b.const }

/-- Negation of an affine expression. -/
def AffExpr.neg {V : Type} (a : AffExpr V) : AffExpr V :=
  { terms := a.terms.map (fun p => (-p.1, p.2)), const := -a.const }

/-- Difference of two affine expressions. -/
def AffExpr.sub {V : Type} (a b : AffExpr V) : AffExpr V :=
  a.add b.neg

/-- Scalar multiple of an affine expression. -/
def AffExpr.smul {V : Type} (c : ℚ) (a : AffExpr V) : AffExpr V :=
  { terms := a.terms.map (fun p => (c * p.1, p.2)), const := c * a.const }

/-- Sum of a list of affine expressions. -/
def AffExpr.sumList {V : Type} (l : List (AffExpr V)) : AffExpr V :=
  l.foldr AffExpr.add AffExpr.zero

/-- A single (in)equality constraint as returned by a pyomo constraint rule:
an equality, an inequality, or `skip` (pyomo's `Constraint.Skip`, no
constraint emitted). -/
inductive Constr (V : Type) where
  | eq (lhs rhs : AffExpr V)
  | le (lhs rhs : AffExpr V)
  | skip
deriving DecidableEq

/-- Satisfaction of a constraint under a variable assignment. -/
def Constr.sat {V : Type} (x : V → ℚ) : Constr V → Prop
  | .eq lhs rhs => lhs.eval x = rhs.eval x
  | .le lhs rhs => lhs.eval x ≤ rhs.eval x
  | .skip => True

instance {V : Type} (x : V → ℚ) (c : Constr V) : Decidable (Constr.sat x c) := by
  cases c with
  | eq lhs rhs => exact inferInstanceAs (Decidable (lhs.eval x = rhs.eval x))
  | le lhs rhs => exact inferInstanceAs (Decidable (lhs.eval x ≤ rhs.eval x))
  | skip => exact inferInstanceAs (Decidable True)

/-! ### C1 — nodal mass balance
Embedding of `MassBalance.constraintNodalMassBalanceRule`
(`src/model/model_instance/objects/mass_balance.py`). -/

/-- The parts of the pyomo model object read by the nodal mass-balance rule:
global carrier sets, the conversion-technology registry with per-technology
input/output carrier sets, and the transport-technology registry with the
alias-node set.  The `has…` flags model the `hasattr` guards of the source. -/
structure MBModel where
  setInputCarriers : List String
  setOutputCarriers : List String
  hasConversionTechnologies : Bool
  setConversionTechnologies : List String
  setInputCarriersTech : String → List String
  setOutputCarriersTech : String → List String
  hasTransportTechnologies : Bool
  setTransportTechnologies : List String
  setAliasNodes : List String

/-- Variable symbols appearing in the nodal mass-balance equation.
`inputTech tech c n t` is the source's `input{tech}[c, n, t]`;
`carrierFlowTech tech …` is the per-technology variable `carrierFlow{tech}`
fetched via `getattr` (used for the inflow sum), while `carrierFlowGlobal` is
the plain attribute `model.carrierFlow` (used for the outflow sum). -/
inductive MBVar where
  | importCarrier (carrier node : String) (time : ℕ)
  | exportCarrier (carrier node : String) (time : ℕ)
  | demandCarrier (carrier node : String) (time : ℕ)
  | inputTech (tech carrier node : String) (time : ℕ)
  | outputTech (tech carrier node : String) (time : ℕ)
  | carrierFlowTech (tech carrier tech2 nodeFrom nodeTo : String) (time : ℕ)
  | carrierFlowGlobal (carrier tech nodeFrom nodeTo : String) (time : ℕ)
deriving DecidableEq

/-- `MassBalance.constraintNodalMassBalanceRule`: the nodal mass balance for a
(carrier, node, time) triple, translated clause by clause from the source.
Note that the conversion sums range over all carriers in
`setInputCarriers{tech}` / `setOutputCarriers{tech}`, with no filter on the
balanced `carrier`, exactly as in the source. -/
def constraintNodalMassBalanceRule (m : MBModel) (carrier node : String)
    (time : ℕ) : Constr MBVar :=
  let carrierImport : AffExpr MBVar :=
    if carrier ∈ m.setInputCarriers then
      AffExpr.ofVar (MBVar.importCarrier carrier node time)
    else AffExpr.zero
  let carrierDemand : AffExpr MBVar :=
    if carrier ∈ m.setOutputCarriers then
      AffExpr.ofVar (MBVar.demandCarrier carrier node time)
    else AffExpr.zero
  let carrierExport : AffExpr MBVar :=
    if carrier ∈ m.setOutputCarriers then
      AffExpr.ofVar (MBVar.exportCarrier carrier node time)
    else AffExpr.zero
  let carrierConversionIn : AffExpr MBVar :=
    if m.hasConversionTechnologies then
      AffExpr.sumList (m.setConversionTechnologies.map (fun tech =>
        AffExpr.sumList ((m.setInputCarriersTech tech).map (fun carrierIn =>
          AffExpr.ofVar (MBVar.inputTech tech carrierIn node time)))))
    else AffExpr.zero
  let carrierConversionOut : AffExpr MBVar :=
    if m.hasConversionTechnologies then
      AffExpr.sumList (m.setConversionTechnologies.map (fun tech =>
        AffExpr.sumList ((m.setOutputCarriersTech tech).map (fun carrierOut =>
          AffExpr.ofVar (MBVar.outputTech tech carrierOut node time)))))
    else AffExpr.zero
  let carrierFlowIn : AffExpr MBVar :=
    if m.hasTransportTechnologies then
      AffExpr.sumList (m.setTransportTechnologies.map (fun tech =>
        AffExpr.sumList (m.setAliasNodes.map (fun aliasNode =>
          AffExpr.ofVar (MBVar.carrierFlowTech tech carrier tech aliasNode node time)))))
    else AffExpr.zero
  let carrierFlowOut : AffExpr MBVar :=
    if m.hasTransportTechnologies then
      AffExpr.sumList (m.setTransportTechnologies.map (fun tech =>
        AffExpr.sumList (m.setAliasNodes.map (fun aliasNode =>
          AffExpr.ofVar (MBVar.carrierFlowGlobal carrier tech node aliasNode time)))))
    else AffExpr.zero
  Constr.eq
    ((((((carrierImport.sub carrierExport).sub carrierConversionIn).add
        carrierConversionOut).add carrierFlowIn).sub carrierFlowOut).sub
      carrierDemand)
    AffExpr.zero

/-- The nodal mass-balance equation as the claim states it (a second
definition following the claim's words, for comparison with the one from the
source): the conversion terms include only the inputs consuming, and the
outputs producing, the balanced carrier. -/
def claimedNodalMassBalanceRule (m : MBModel) (carrier node : String)
    (time : ℕ) : Constr MBVar :=
  let carrierImport : AffExpr MBVar :=
    if carrier ∈ m.setInputCarriers then
      AffExpr.ofVar (MBVar.importCarrier carrier node time)
    else AffExpr.zero
  let carrierDemand : AffExpr MBVar :=
    if carrier ∈ m.setOutputCarriers then
      AffExpr.ofVar (MBVar.demandCarrier carrier node time)
    else AffExpr.zero
  let carrierExport : AffExpr MBVar :=
    if carrier ∈ m.setOutputCarriers then
      AffExpr.ofVar (MBVar.exportCarrier carrier node time)
    else AffExpr.zero
  let carrierConversionIn : AffExpr MBVar :=
    if m.hasConversionTechnologies then
      AffExpr.sumList (m.setConversionTechnologies.map (fun tech =>
        if carrier ∈ m.setInputCarriersTech tech then
          AffExpr.ofVar (MBVar.inputTech tech carrier node time)
        else AffExpr.zero))
    else AffExpr.zero
  let carrierConversionOut : AffExpr MBVar :=
    if m.hasConversionTechnologies then
      AffExpr.sumList (m.setConversionTechnologies.map (fun tech =>
        if carrier ∈ m.setOutputCarriersTech tech then
          AffExpr.ofVar (MBVar.outputTech tech carrier node time)
        else AffExpr.zero))
    else AffExpr.zero
  let carrierFlowIn : AffExpr MBVar :=
    if m.hasTransportTechnologies then
      AffExpr.sumList (m.setTransportTechnologies.map (fun tech =>
        AffExpr.sumList (m.setAliasNodes.map (fun aliasNode =>
          AffExpr.ofVar (MBVar.carrierFlowTech tech carrier tech aliasNode node time)))))
    else AffExpr.zero
  let carrierFlowOut : AffExpr MBVar :=
    if m.hasTransportTechnologies then
      AffExpr.sumList (m.setTransportTechnologies.map (fun tech =>
        AffExpr.sumList (m.setAliasNodes.map (fun aliasNode =>
          AffExpr.ofVar (MBVar.carrierFlowGlobal carrier tech node aliasNode time)))))
    else AffExpr.zero
  Constr.eq
    ((((((carrierImport.sub carrierExport).sub carrierConversionIn).add
        carrierConversionOut).add carrierFlowIn).sub carrierFlowOut).sub
      carrierDemand)
    AffExpr.zero

/-- A concrete model instance exhibiting the divergence: one conversion
technology `T` consuming `gas` and producing `elec`, no transport
technologies. -/
def mbExample : MBModel :=
  { setInputCarriers := ["gas"]
    setOutputCarriers := ["elec"]
    hasConversionTechnologies := true
    setConversionTechnologies := ["T"]
    setInputCarriersTech := fun t => if t = "T" then ["gas"] else []
    setOutputCarriersTech := fun t => if t = "T" then ["elec"] else []
    hasTransportTechnologies := false
    setTransportTechnologies := []
    setAliasNodes := [] }

/-- A concrete assignment: the technology draws one unit of `gas`; every other
quantity is zero. -/
def mbExampleAssignment : MBVar → ℚ :=
  fun v => if v = MBVar.inputTech "T" "gas" "n" 0 then 1 else 0

/-! ### C2 — rolling-horizon solve driver
Embedding of the scenario/horizon loop of `compile`
(`src/zen_garden/_internal.py`, lines 88–113) as the sequence of collaborator
invocations it issues. -/

/-- One observable invocation made by the solve driver. -/
inductive DriverEvent where
  | restoreBaseConfiguration (scenario : String)
  | overwriteParams (scenario : String)
  | overwriteTimeIndices (stepHorizon : ℕ)
  | constructOptimizationProblem (stepHorizon : ℕ)
  | solve (stepHorizon : ℕ)
  | addNewlyBuiltCapacity (stepHorizon : ℕ)
  | addCarbonEmissionsCumulative (stepHorizon : ℕ)
  | postprocess (stepHorizon : ℕ)
deriving DecidableEq

/-- The body of the inner `for stepHorizon in stepsOptimizationHorizon` loop,
in the order the source issues the calls: overwrite time indices, construct,
solve, add newly built capacity, add cumulative carbon emissions, and finally
construct the `Postprocess` object (result extraction). -/
def horizonStepBody (stepHorizon : ℕ) : List DriverEvent :=
  [DriverEvent.overwriteTimeIndices stepHorizon,
   DriverEvent.constructOptimizationProblem stepHorizon,
   DriverEvent.solve stepHorizon,
   DriverEvent.addNewlyBuiltCapacity stepHorizon,
   DriverEvent.addCarbonEmissionsCumulative stepHorizon,
   DriverEvent.postprocess stepHorizon]

/-- The inner loop over horizon steps, as structural recursion over the list
of steps. -/
def horizonLoop : List ℕ → List DriverEvent
  | [] => []
  | stepHorizon :: rest => horizonStepBody stepHorizon ++ horizonLoop rest

/-- The outer loop of `compile` over `config.scenarios`: per scenario, restore
the base configuration, apply the scenario's parameter overwrites, then run
the horizon loop. -/
def compileEvents : List String → List ℕ → List DriverEvent
  | [], _ => []
  | scenario :: rest, steps =>
      DriverEvent.restoreBaseConfiguration scenario ::
      DriverEvent.overwriteParams scenario ::
      (horizonLoop steps ++ compileEvents rest steps)

/-- The per-step call sequence as the claim states it: extraction precedes the
capacity carry-forward and emission accumulation (a second definition
following the claim's words, for comparison with the one from the source). -/
def claimedHorizonStepBody (stepHorizon : ℕ) : List DriverEvent :=
  [DriverEvent.overwriteTimeIndices stepHorizon,
   DriverEvent.constructOptimizationProblem stepHorizon,
   DriverEvent.solve stepHorizon,
   DriverEvent.postprocess stepHorizon,
   DriverEvent.addNewlyBuiltCapacity stepHorizon,
   DriverEvent.addCarbonEmissionsCumulative stepHorizon]

/-- The full driver trace as the claim states it. -/
def claimedCompileEvents (scenarios : List String) (steps : List ℕ) :
    List DriverEvent :=
  scenarios.flatMap (fun scenario =>
    DriverEvent.restoreBaseConfiguration scenario ::
    DriverEvent.overwriteParams scenario ::
    steps.flatMap claimedHorizonStepBody)

/-- The full driver trace with the amended per-step order (ADVANCE before
EXTRACT), written as a flat `bind` expression independent of the recursion
used in `compileEvents`. -/
def amendedCompileEvents (scenarios : List String) (steps : List ℕ) :
    List DriverEvent :=
  scenarios.flatMap (fun scenario =>
    DriverEvent.restoreBaseConfiguration scenario ::
    DriverEvent.overwriteParams scenario ::
    steps.flatMap horizonStepBody)

/-! ### C3 — conversion-technology performance constraint
Embedding of `ProductionTechnology.constraintProductionTechnologiesPerformanceRule`
(`src/model/model_instance/objects/technology/production_technology.py`). -/

/-- The parameter read by the performance rule: the linear conversion
efficiency, indexed by (technology, input carrier, output carrier). -/
structure PTParams where
  converEfficiency : String → String → String → ℚ

/-- Variable symbols of the production-technology performance constraint. -/
inductive PTVar where
  | inputProductionTechnologies (carrier tech node : String) (time : ℕ)
  | outputProductionTechnologies (carrier tech node : String) (time : ℕ)
deriving DecidableEq

/-- `constraintProductionTechnologiesPerformanceRule`: if the conversion
efficiency of (tech, carrierIn, carrierOut) is positive, require
efficiency · input ≤ output; otherwise require input = 0. -/
def constraintProductionTechnologiesPerformanceRule (p : PTParams)
    (tech carrierIn carrierOut node : String) (time : ℕ) : Constr PTVar :=
  if 0 < p.converEfficiency tech carrierIn carrierOut then
    Constr.le
      (AffExpr.smul (p.converEfficiency tech carrierIn carrierOut)
        (AffExpr.ofVar (PTVar.inputProductionTechnologies carrierIn tech node time)))
      (AffExpr.ofVar (PTVar.outputProductionTechnologies carrierOut tech node time))
  else
    Constr.eq
      (AffExpr.ofVar (PTVar.inputProductionTechnologies carrierIn tech node time))
      AffExpr.zero

/-! ### C4 / C6 — transport-technology constraint rules
Embedding of the constraint rules of
`src/zen_garden/model/objects/technology/transport_technology.py`. -/

/-- A distance value: finite (a rational), or infinite (the source checks
`np.isinf(params.distance[tech, edge])`). -/
inductive Distance where
  | val (d : ℚ)
  | infinite
deriving DecidableEq

/-- The parameters read by the transport-technology constraint rules, and the
system entry / reversed-edge dictionary consulted by the bidirectionality
rule. -/
structure TTParams where
  distance : String → String → Distance
  lossFlow : String → ℚ
  capexSpecificTransport : String → String → ℕ → ℚ
  capexPerDistance : String → String → ℕ → ℚ
  setBidirectionalTransportTechnologies : List String
  dictReversedEdges : String → String

/-- Variable symbols of the transport-technology constraints.  Capacity-type
variables carry the `"power"` capacity-type index used by the source. -/
inductive TTVar where
  | carrierFlow (tech edge : String) (time : ℕ)
  | carrierLoss (tech edge : String) (time : ℕ)
  | builtCapacity (tech capacityType edge : String) (time : ℕ)
  | capex (tech capacityType edge : String) (time : ℕ)
  | installTechnology (tech capacityType edge : String) (time : ℕ)
deriving DecidableEq

/-- `constraintTransportTechnologyLossesFlowRule`: carrierLoss equals
distance × lossFlow × carrierFlow, degenerating to carrierLoss = 0 when the
distance is infinite. -/
def constraintTransportTechnologyLossesFlowRule (p : TTParams)
    (tech edge : String) (time : ℕ) : Constr TTVar :=
  match p.distance tech edge with
  | Distance.infinite =>
      Constr.eq (AffExpr.ofVar (TTVar.carrierLoss tech edge time)) AffExpr.zero
  | Distance.val d =>
      Constr.eq (AffExpr.ofVar (TTVar.carrierLoss tech edge time))
        (AffExpr.smul (d * p.lossFlow tech)
          (AffExpr.ofVar (TTVar.carrierFlow tech edge time)))

/-- `constraintCapexTransportTechnologyRule`: for finite distance, capex
equals built capacity × specific capex + install indicator × distance ×
capex per distance; for infinite distance the rule instead forces the built
capacity to zero. -/
def constraintCapexTransportTechnologyRule (p : TTParams)
    (tech edge : String) (time : ℕ) : Constr TTVar :=
  match p.distance tech edge with
  | Distance.infinite =>
      Constr.eq (AffExpr.ofVar (TTVar.builtCapacity tech "power" edge time))
        AffExpr.zero
  | Distance.val d =>
      Constr.eq (AffExpr.ofVar (TTVar.capex tech "power" edge time))
        ((AffExpr.smul (p.capexSpecificTransport tech edge time)
            (AffExpr.ofVar (TTVar.builtCapacity tech "power" edge time))).add
          (AffExpr.smul (d * p.capexPerDistance tech edge time)
            (AffExpr.ofVar (TTVar.installTechnology tech "power" edge time))))

/-- `constraintBidirectionalTransportTechnologyRule`: for a technology listed
in `setBidirectionalTransportTechnologies`, equate the built capacity on an
edge with the built capacity on its reversed edge; otherwise return
`Constraint.Skip`. -/
def constraintBidirectionalTransportTechnologyRule (p : TTParams)
    (tech edge : String) (time : ℕ) : Constr TTVar :=
  if tech ∈ p.setBidirectionalTransportTechnologies then
    Constr.eq (AffExpr.ofVar (TTVar.builtCapacity tech "power" edge time))
      (AffExpr.ofVar
        (TTVar.builtCapacity tech "power" (p.dictReversedEdges edge) time))
  else
    Constr.skip

/-- A concrete transport parameter set whose single edge `A-B` has infinite
distance (no bidirectional technologies). -/
def ttInfiniteExample : TTParams :=
  { distance := fun _ _ => Distance.infinite
    lossFlow := fun _ => 1
    capexSpecificTransport := fun _ _ _ => 1
    capexPerDistance := fun _ _ _ => 1
    setBidirectionalTransportTechnologies := []
    dictReversedEdges := fun _ => "B-A" }

/-- A concrete assignment at the infinite-distance edge: carrier flow 5,
every other quantity zero. -/
def ttInfiniteAssignment : TTVar → ℚ :=
  fun v => if v = TTVar.carrierFlow "pipe" "A-B" 0 then 5 else 0

/-! ### C5 — bidirectional existing-capacity consistency check
Embedding of `TransportTechnology.store_input_data` /
`TransportTechnology.checkIfBidirectional`
(`src/zen_garden/model/objects/technology/transport_technology.py`). -/

/-- The input data consulted by the check: the technology name, the edge set,
the per-edge existing-capacity series, the reversed-edge map
(`EnergySystem.calculate_reversed_edge`) and the system's declared
bidirectional technologies. -/
structure TransportInputData where
  name : String
  setEdges : List String
  existingCapacity : String → List ℚ
  calculateReversedEdge : String → String
  setBidirectionalTransportTechnologies : List String

/-- The data-consistency error raised by the failed assertion: it carries the
technology name and the offending edge pair. -/
structure BidirectionalCapacityError where
  techName : String
  edge : String
  reversedEdge : String
deriving DecidableEq

/-- The assertion message of `checkIfBidirectional`, built exactly as the
source's f-string (up to the trailing series dump). -/
def bidirectionalErrorMessage (e : BidirectionalCapacityError) : String :=
  String.append
    (String.append
      (String.append
        (String.append
          (String.append "The existing capacities of the bidirectional transport technology "
            e.techName)
          " are not equal on the edge pair ")
        e.edge)
      " and ")
    e.reversedEdge

/-- The edge loop of `checkIfBidirectional`: fail on the first edge whose
existing-capacity series differs from that of its reversed edge. -/
def checkIfBidirectionalLoop (d : TransportInputData) :
    List String → Except BidirectionalCapacityError Unit
  | [] => Except.ok ()
  | edge :: rest =>
      if d.existingCapacity edge =
          d.existingCapacity (d.calculateReversedEdge edge) then
        checkIfBidirectionalLoop d rest
      else
        Except.error
          { techName := d.name
            edge := edge
            reversedEdge := d.calculateReversedEdge edge }

/-- `checkIfBidirectional`: iterate over all edges of the energy system,
comparing the existing capacities of each edge and its reversed edge. -/
def checkIfBidirectional (d : TransportInputData) :
    Except BidirectionalCapacityError Unit :=
  checkIfBidirectionalLoop d d.setEdges

/-- The bidirectionality portion of `store_input_data`: the check runs only
when the technology is listed in `setBidirectionalTransportTechnologies`. -/
def storeInputDataBidirectionalCheck (d : TransportInputData) :
    Except BidirectionalCapacityError Unit :=
  if d.name ∈ d.setBidirectionalTransportTechnologies then
    checkIfBidirectional d
  else
    Except.ok ()

/-! ### C7 — transport capex extraction
Embedding of `TransportTechnology.getCapexTransport`
(`src/zen_garden/model/objects/technology/transport_technology.py`,
non-double-capex branch included as in the source). -/

/-- The inputs of `getCapexTransport`: the system's double-capex flag, the
existence flags reported by `datainput.exists_attribute`, the extracted
per-(edge, yearly time step) input series, the per-edge distance and the
fixed-opex series already stored on the element. -/
structure CapexInputData where
  name : String
  doubleCapexTransport : Bool
  existsCapexPerDistance : Bool
  capexPerDistanceInput : String → ℕ → ℚ
  existsCapexSpecific : Bool
  capexSpecificInput : String → ℕ → ℚ
  distance : String → ℚ
  fixedOpexSpecificInput : String → ℕ → ℚ

/-- The attributes stored by `getCapexTransport` on success. -/
structure CapexResult where
  capexSpecific : String → ℕ → ℚ
  capexPerDistance : String → ℕ → ℚ
  fixedOpexSpecific : String → ℕ → ℚ

/-- The `AttributeError` raised when neither capex attribute exists; it names
the transport technology. -/
structure CapexAttributeError where
  techName : String
deriving DecidableEq

/-- The error message of the raised `AttributeError`, as in the source. -/
def capexAttributeErrorMessage (e : CapexAttributeError) : String :=
  String.append
    (String.append "The transport technology " e.techName)
    " has neither capexPerDistance nor capexSpecific attribute."

/-- `getCapexTransport`: with double capex configured, both series are taken
as extracted.  Otherwise: if `capexPerDistance` exists, the specific capex is
derived as capexPerDistance × distance (and the fixed opex is also scaled by
distance); else if `capexSpecific` exists it is taken as extracted; else an
`AttributeError` is raised.  In every non-raising single-capex branch the
per-distance capex is finally overwritten with capexSpecific × 0.0. -/
def getCapexTransport (d : CapexInputData) :
    Except CapexAttributeError CapexResult :=
  if d.doubleCapexTransport then
    Except.ok
      { capexSpecific := d.capexSpecificInput
        capexPerDistance := d.capexPerDistanceInput
        fixedOpexSpecific := d.fixedOpexSpecificInput }
  else
    if d.existsCapexPerDistance then
      Except.ok
        { capexSpecific := fun edge t => d.capexPerDistanceInput edge t * d.distance edge
          capexPerDistance := fun edge t =>
            (d.capexPerDistanceInput edge t * d.distance edge) * 0
          fixedOpexSpecific := fun edge t =>
            d.fixedOpexSpecificInput edge t * d.distance edge }
    else if d.existsCapexSpecific then
      Except.ok
        { capexSpecific := d.capexSpecificInput
          capexPerDistance := fun edge t => d.capexSpecificInput edge t * 0
          fixedOpexSpecific := d.fixedOpexSpecificInput }
    else
      Except.error { techName := d.name }

/-! ### C8 / C9 — results persistence
Embedding of `Postprocess` (`src/zen_garden/postprocess/results.py`).  The
output directory is modelled as a store mapping file names to contents; a
variable table maps a variable name to its rows (index tuple, optional solved
value). -/

/-- A solved variable table: per variable name, the rows of the serialized
dataframe, keyed by the index tuple (index components rendered as strings). -/
abbrev VarTable := List (String × List (List String × Option ℚ))

/-- The string rendering of an index tuple used by `saveVar`
(the source stringifies each multi-index tuple key before JSON dumping). -/
def renderIndexTuple (idx : List String) : String :=
  String.append (String.append "(" (String.intercalate ", " idx)) ")"

/-- Contents of a persisted file: the JSON variable dump (tuple keys rendered
as strings), a pickled variable table, or an opaque other object (parameter
dump, configuration snapshot, time-step mapping). -/
inductive FileContent where
  | jsonVarDict (entries : List (String × List (String × Option ℚ)))
  | pickleVarDict (t : VarTable)
  | opaqueObject
deriving DecidableEq

/-- The output directory as a store of files; a later write to a name shadows
an earlier one. -/
abbrev FileStore := List (String × FileContent)

/-- Write (create or overwrite) a file. -/
def FileStore.write (fs : FileStore) (name : String) (c : FileContent) :
    FileStore :=
  (name, c) :: fs

/-- Read a file, returning the most recent content if present. -/
def FileStore.read (fs : FileStore) (name : String) : Option FileContent :=
  (fs.find? (fun p => p.1 == name)).map Prod.snd

/-- The serialized form produced by `saveVar`: per variable, the dataframe
rows with each index tuple rendered as a string. -/
def serializeVarTable (t : VarTable) : List (String × List (String × Option ℚ)) :=
  t.map (fun e => (e.1, e.2.map (fun row => (renderIndexTuple row.1, row.2))))

/-- `Postprocess.saveVar`: dump the variable dataframes to `varDict.json`,
with the multi-index tuples rendered as strings. -/
def saveVar (t : VarTable) (fs : FileStore) : FileStore :=
  fs.write "varDict.json" (FileContent.jsonVarDict (serializeVarTable t))

/-- An error when loading a persisted file. -/
inductive LoadError where
  | fileNotFound (name : String)
  | wrongFormat (name : String)
deriving DecidableEq

/-- `Postprocess.loadVar`: unpickle the variable table from
`varDict.pickle`. -/
def loadVar (fs : FileStore) : Except LoadError VarTable :=
  match fs.read "varDict.pickle" with
  | none => Except.error (LoadError.fileNotFound "varDict.pickle")
  | some (FileContent.pickleVarDict t) => Except.ok t
  | some _ => Except.error (LoadError.wrongFormat "varDict.pickle")

/-- `Postprocess.saveResults`: pickle the parameter dictionary to
`paramDict.pickle` and the variable dictionary to `varDict.pickle` (the
additional per-variable `.csv` dumps, whose names all end in `.csv`, are
elided). -/
def saveResults (varDict : VarTable) (fs : FileStore) : FileStore :=
  (fs.write "paramDict.pickle" FileContent.opaqueObject).write
    "varDict.pickle" (FileContent.pickleVarDict varDict)

/-- One statement of `Postprocess.__init__` (and of the methods it calls), at
the granularity of observable effects: creating the output directories,
writing one file, or terminating the process. -/
inductive InitStep where
  | makeOutputDirs
  | writeFile (name : String)
  | exitProcess (code : ℕ)
deriving DecidableEq

/-- The files written by `Postprocess.saveParam`: the parameter table and the
time-step sequence mapping (JSON and pickle). -/
def saveParamWrites : List String :=
  ["paramDict.json", "dictAllSequenceTimeSteps.json",
   "dictAllSequenceTimeSteps.pickle"]

/-- The file written by `Postprocess.saveVar`. -/
def saveVarWrites : List String := ["varDict.json"]

/-- The file written by `Postprocess.saveSystem`. -/
def saveSystemWrites : List String := ["System.pickle"]

/-- The file written by `Postprocess.saveAnalysis`. -/
def saveAnalysisWrites : List String := ["Analysis.pickle"]

/-- The effect sequence of `Postprocess.__init__`, statement by statement:
create the output directories, `saveParam()`, `saveVar()`, `exit(0)`, and
then the dead `if model.analysis['postprocess']` branches (which call
`saveParam`/`saveVar`/`saveSystem`/`saveAnalysis` and, in the postprocess
branch, `process()`, which re-writes the time-step pickle). -/
def postprocessInitSteps (postprocessFlag : Bool) : List InitStep :=
  [InitStep.makeOutputDirs] ++
  saveParamWrites.map InitStep.writeFile ++
  saveVarWrites.map InitStep.writeFile ++
  [InitStep.exitProcess 0] ++
  (if postprocessFlag then
    saveParamWrites.map InitStep.writeFile ++
    saveVarWrites.map InitStep.writeFile ++
    saveSystemWrites.map InitStep.writeFile ++
    saveAnalysisWrites.map InitStep.writeFile ++
    [InitStep.writeFile "dictAllSequenceTimeSteps.pickle"]
  else
    [InitStep.makeOutputDirs] ++
    saveParamWrites.map InitStep.writeFile ++
    saveVarWrites.map InitStep.writeFile ++
    saveSystemWrites.map InitStep.writeFile ++
    saveAnalysisWrites.map InitStep.writeFile)

/-- How an effect sequence terminates: by calling `exit` or by falling off the
end. -/
inductive InitOutcome where
  | exited (code : ℕ)
  | finished
deriving DecidableEq

/-- Run an effect sequence: collect the names of the files actually written,
stopping at the first `exit`. -/
def runInitSteps : List InitStep → List String × InitOutcome
  | [] => ([], InitOutcome.finished)
  | InitStep.exitProcess c :: _ => ([], InitOutcome.exited c)
  | InitStep.writeFile f :: rest =>
      let r := runInitSteps rest
      (f :: r.1, r.2)
  | InitStep.makeOutputDirs :: rest => runInitSteps rest

/-! ### C10 — variable domains
Embedding of the decision-variable declarations of
`TransportTechnology.construct_vars`
(`src/zen_garden/model/objects/technology/transport_technology.py`),
`TransportTechnology.constructVars`
(`src/model/objects/technology/transport_technology.py`) and the
`ProductionTechnology.__init__` variable dictionary
(`src/model/model_instance/objects/technology/production_technology.py`,
whose docstrings declare `Domain: NonNegativeReals`). -/

/-- A pyomo variable domain. -/
inductive VarDomain where
  | NonNegativeReals
  | Reals
deriving DecidableEq

/-- Membership of a rational value in a domain. -/
def VarDomain.containsQ : VarDomain → ℚ → Prop
  | VarDomain.NonNegativeReals, q => 0 ≤ q
  | VarDomain.Reals, _ => True

/-- A variable declaration: name, index sets, domain. -/
structure VarDecl where
  name : String
  indexSets : List String
  domain : VarDomain
deriving DecidableEq

/-- The variables declared by `TransportTechnology.construct_vars`
(zen_garden generation). -/
def transportConstructVarsDecls : List VarDecl :=
  [{ name := "carrierFlow"
     indexSets := ["setTransportTechnologies", "setEdges", "setTimeStepsOperation"]
     domain := VarDomain.NonNegativeReals },
   { name := "carrierLoss"
     indexSets := ["setTransportTechnologies", "setEdges", "setTimeStepsOperation"]
     domain := VarDomain.NonNegativeReals }]

/-- The variables declared by `TransportTechnology.constructVars`
(model/objects generation). -/
def transportConstructVarsDeclsOld : List VarDecl :=
  [{ name := "carrierFlow"
     indexSets := ["setTransportCarriersTech", "setEdges", "setTimeSteps"]
     domain := VarDomain.NonNegativeReals },
   { name := "carrierLoss"
     indexSets := ["setTransportCarriersTech", "setEdges", "setTimeSteps"]
     domain := VarDomain.NonNegativeReals }]

/-- The variables declared by the `ProductionTechnology.__init__` variable
dictionary (domains as declared in the source's docstrings). -/
def productionTechnologyVarDecls : List VarDecl :=
  [{ name := "inputProductionTechnologies"
     indexSets := ["setInputCarriers", "setProductionTechnologies", "setNodes", "setTimeSteps"]
     domain := VarDomain.NonNegativeReals },
   { name := "outputProductionTechnologies"
     indexSets := ["setOutputCarriers", "setProductionTechnologies", "setNodes", "setTimeSteps"]
     domain := VarDomain.NonNegativeReals }]

/-- All flow/loss/input/output declarations the claim is about. -/
def flowAndStreamVarDecls : List VarDecl :=
  transportConstructVarsDecls ++ transportConstructVarsDeclsOld ++
    productionTechnologyVarDecls

/-- An assignment of values to (variable name, index tuple) pairs respects the
declared domains when every declared variable's value lies in its domain at
every index. -/
def respectsDomains (decls : List VarDecl) (x : String → List String → ℚ) :
    Prop :=
  ∀ d ∈ decls, ∀ idx : List String, d.domain.containsQ (x d.name idx)

/-! ### Concrete instances used by the witnesses -/

/-- A production-technology parameter set with efficiency 1/2 for
(T, gas, elec) and efficiency 0 otherwise. -/
def ptExampleParams : PTParams :=
  { converEfficiency := fun tech carrierIn carrierOut =>
      if tech = "T" ∧ carrierIn = "gas" ∧ carrierOut = "elec" then 1 / 2 else 0 }

/-- A concrete assignment for the performance constraint: input 4, output 2. -/
def ptExampleAssignment : PTVar → ℚ :=
  fun v =>
    if v = PTVar.inputProductionTechnologies "gas" "T" "n" 0 then 4
    else if v = PTVar.outputProductionTechnologies "elec" "T" "n" 0 then 2
    else 0

/-- A transport parameter set with one declared bidirectional technology
`pipe` (the technology `road` is not declared bidirectional) and finite unit
data on edge `A-B` with reverse `B-A`. -/
def ttBidirExample : TTParams :=
  { distance := fun _ _ => Distance.val 10
    lossFlow := fun _ => 1 / 100
    capexSpecificTransport := fun _ _ _ => 3
    capexPerDistance := fun _ _ _ => 2
    setBidirectionalTransportTechnologies := ["pipe"]
    dictReversedEdges := fun e => if e = "A-B" then "B-A" else "A-B" }

/-- A concrete assignment for the finite-distance transport constraints:
flow 7, loss 10 × (1/100) × 7, built capacity 4, install indicator 1,
capex 4 × 3 + 1 × 10 × 2. -/
def ttFiniteAssignment : TTVar → ℚ :=
  fun v =>
    if v = TTVar.carrierFlow "pipe" "A-B" 0 then 7
    else if v = TTVar.carrierLoss "pipe" "A-B" 0 then 7 / 10
    else if v = TTVar.builtCapacity "pipe" "power" "A-B" 0 then 4
    else if v = TTVar.installTechnology "pipe" "power" "A-B" 0 then 1
    else if v = TTVar.capex "pipe" "power" "A-B" 0 then 32
    else 0

/-- Transport input data for a declared-bidirectional technology whose
existing capacities differ across the edge pair (A-B, B-A). -/
def bdExample : TransportInputData :=
  { name := "pipe"
    setEdges := ["A-B", "B-A"]
    existingCapacity := fun e => if e = "A-B" then [1] else [2]
    calculateReversedEdge := fun e => if e = "A-B" then "B-A" else "A-B"
    setBidirectionalTransportTechnologies := ["pipe"] }

/-- Capex input data where only `capexSpecific` exists (no double capex). -/
def capexSpecificOnlyExample : CapexInputData :=
  { name := "pipe"
    doubleCapexTransport := false
    existsCapexPerDistance := false
    capexPerDistanceInput := fun _ _ => 0
    existsCapexSpecific := true
    capexSpecificInput := fun _ _ => 5
    distance := fun _ => 10
    fixedOpexSpecificInput := fun _ _ => 1 }

/-- A concrete solved variable table with a tuple index. -/
def varTableExample : VarTable :=
  [("capacity", [(["pipe", "power", "A-B", "0"], some 4), (["pipe", "power", "B-A", "0"], none)])]

/-! ## Theorems -/

/-! ### Evaluation lemmas for affine expressions -/

/-- Evaluation of the zero expression. -/
@[simp] theorem AffExpr.eval_zero {V : Type} (x : V → ℚ) :
    AffExpr.eval x (AffExpr.zero : AffExpr V) = 0 := by
  simp [AffExpr.eval, AffExpr.zero]

/-- Evaluation of a variable expression. -/
@[simp] theorem AffExpr.eval_ofVar {V : Type} (x : V → ℚ) (v : V) :
    AffExpr.eval x (AffExpr.ofVar v) = x v := by
  simp [AffExpr.eval, AffExpr.ofVar]

/-- Evaluation distributes over sums of expressions. -/
@[simp] theorem AffExpr.eval_add {V : Type} (x : V → ℚ) (a b : AffExpr V) :
    AffExpr.eval x (a.add b) = AffExpr.eval x a + AffExpr.eval x b := by
  simp [AffExpr.eval, AffExpr.add]
  ring

/-- Evaluation commutes with negation. -/
@[simp] theorem AffExpr.eval_neg {V : Type} (x : V → ℚ) (a : AffExpr V) :
    AffExpr.eval x a.neg = -AffExpr.eval x a := by
  unfold AffExpr.eval AffExpr.neg
  induction a.terms with
  | nil => simp
  | cons p rest ih =>
      simp only [List.map_cons, List.sum_cons] at *
      linarith [ih]

/-- Evaluation distributes over differences. -/
@[simp] theorem AffExpr.eval_sub {V : Type} (x : V → ℚ) (a b : AffExpr V) :
    AffExpr.eval x (a.sub b) = AffExpr.eval x a - AffExpr.eval x b := by
  simp [AffExpr.sub]
  ring

/-- Evaluation commutes with scalar multiplication. -/
@[simp] theorem AffExpr.eval_smul {V : Type} (x : V → ℚ) (c : ℚ) (a : AffExpr V) :
    AffExpr.eval x (AffExpr.smul c a) = c * AffExpr.eval x a := by
  unfold AffExpr.eval AffExpr.smul
  induction a.terms with
  | nil => simp
  | cons p rest ih =>
      simp only [List.map_cons, List.sum_cons] at *
      linarith [ih]

/-- Evaluation of a list sum of expressions. -/
@[simp] theorem AffExpr.eval_sumList {V : Type} (x : V → ℚ) (l : List (AffExpr V)) :
    AffExpr.eval x (AffExpr.sumList l) = (l.map (AffExpr.eval x)).sum := by
  induction l with
  | nil => simp [AffExpr.sumList]
  | cons a rest ih =>
      simp [AffExpr.sumList] at *
      simp [ih]

/-- Satisfaction of an equality constraint. -/
@[simp] theorem Constr.sat_eq {V : Type} (x : V → ℚ) (lhs rhs : AffExpr V) :
    Constr.sat x (Constr.eq lhs rhs) ↔ AffExpr.eval x lhs = AffExpr.eval x rhs :=
  Iff.rfl

/-- Satisfaction of an inequality constraint. -/
@[simp] theorem Constr.sat_le {V : Type} (x : V → ℚ) (lhs rhs : AffExpr V) :
    Constr.sat x (Constr.le lhs rhs) ↔ AffExpr.eval x lhs ≤ AffExpr.eval x rhs :=
  Iff.rfl

/-- Every assignment satisfies a skipped constraint. -/
@[simp] theorem Constr.sat_skip {V : Type} (x : V → ℚ) :
    Constr.sat x (Constr.skip : Constr V) :=
  trivial

/-! ### C1 -/

/-- C1: the claim is right and the code is wrong.  In the assembled nodal
mass-balance constraint, the conversion-technology sums range over ALL input
and output carriers of each technology instead of only the terms consuming or
producing the balanced carrier.  Concretely, for a technology `T` consuming
`gas` and producing `elec`, the balance equation for carrier `elec` contains
the term −input`T`[gas]: the assignment drawing one unit of `gas` (all other
quantities zero) satisfies the equation the claim states but violates the
constraint the code emits. -/
theorem massBalance_conversionTerms_divergence :
    Constr.sat mbExampleAssignment
      (claimedNodalMassBalanceRule mbExample "elec" "n" 0) ∧
    ¬ Constr.sat mbExampleAssignment
      (constraintNodalMassBalanceRule mbExample "elec" "n" 0) := by
  constructor
  · simp [Constr.sat, claimedNodalMassBalanceRule, mbExample, mbExampleAssignment]
  · simp [Constr.sat, constraintNodalMassBalanceRule, mbExample, mbExampleAssignment]

/-! ### C2 -/

/-- The inner horizon loop of `compile` issues, per step, the call sequence
`overwriteTimeIndices`, `constructOptimizationProblem`, `solve`,
`addNewlyBuiltCapacity`, `addCarbonEmissionsCumulative`, `postprocess`. -/
theorem horizonLoop_eq_flatMap (steps : List ℕ) :
    horizonLoop steps = steps.flatMap horizonStepBody := by
  induction steps with
  | nil => rfl
  | cons s rest ih => simp [horizonLoop, ih]

/-- C2: counterexample to the claim as stated.  For a single base scenario and
a single horizon step, the call trace of `compile` is not the claimed one: the
capacity carry-forward (`addNewlyBuiltCapacity`) occurs strictly before the
result extraction (`Postprocess` construction), not after it. -/
theorem compileEvents_extract_after_advance :
    compileEvents ["base"] [0] ≠ claimedCompileEvents ["base"] [0] ∧
    (compileEvents ["base"] [0]).indexOf (DriverEvent.addNewlyBuiltCapacity 0) <
      (compileEvents ["base"] [0]).indexOf (DriverEvent.postprocess 0) := by
  decide

/-- C2 (amended): for every scenario, the solve driver first restores the base
configuration and applies that scenario's parameter overwrites; then, for each
horizon step in order, it overwrites the time indices and constructs the
optimization problem, invokes the solver, carries newly built capacity into
the next step's existing-capacity baseline and accumulates cumulative carbon
emissions, and only then extracts/persists variable and parameter values;
the run ends (as the loop is written) when the horizon steps are exhausted. -/
theorem compileEvents_eq_amended (scenarios : List String) (steps : List ℕ) :
    compileEvents scenarios steps = amendedCompileEvents scenarios steps := by
  induction scenarios with
  | nil => rfl
  | cons s rest ih =>
      simp [compileEvents, amendedCompileEvents, horizonLoop_eq_flatMap] at *
      simp [ih]

/-! ### C3 -/

/-- C3: for every production technology, input/output carrier pair, node and
time step, the linear performance constraint is efficiency · input ≤ output
whenever the conversion efficiency is strictly positive, and otherwise it
constrains the input variable to equal zero, so any feasible solution has
zero input for a zero-efficiency pair. -/
theorem productionPerformance_linear_zeroEfficiency (p : PTParams)
    (tech carrierIn carrierOut node : String) (time : ℕ) :
    (0 < p.converEfficiency tech carrierIn carrierOut →
      ∀ x : PTVar → ℚ,
        Constr.sat x
            (constraintProductionTechnologiesPerformanceRule p tech carrierIn
              carrierOut node time) ↔
          p.converEfficiency tech carrierIn carrierOut *
              x (PTVar.inputProductionTechnologies carrierIn tech node time) ≤
            x (PTVar.outputProductionTechnologies carrierOut tech node time)) ∧
    (p.converEfficiency tech carrierIn carrierOut = 0 →
      ∀ x : PTVar → ℚ,
        Constr.sat x
            (constraintProductionTechnologiesPerformanceRule p tech carrierIn
              carrierOut node time) ↔
          x (PTVar.inputProductionTechnologies carrierIn tech node time) = 0) := by
  constructor
  · intro hpos x
    simp [constraintProductionTechnologiesPerformanceRule, if_pos hpos]
  · intro hzero x
    rw [constraintProductionTechnologiesPerformanceRule, if_neg (by rw [hzero]; exact lt_irrefl 0)]
    simp

/-- Witness for C3 at a concrete input: with efficiency 1/2 for (T, gas, elec)
and the assignment input = 4, output = 2, the emitted performance constraint
is satisfied; with the zero-efficiency pair (T, gas, heat), satisfaction of
the emitted constraint forces the input to zero. -/
theorem productionPerformance_witness :
    Constr.sat ptExampleAssignment
      (constraintProductionTechnologiesPerformanceRule ptExampleParams "T"
        "gas" "elec" "n" 0) ∧
    ¬ Constr.sat ptExampleAssignment
      (constraintProductionTechnologiesPerformanceRule ptExampleParams "T"
        "gas" "heat" "n" 0) := by
  constructor
  · exact ((productionPerformance_linear_zeroEfficiency ptExampleParams "T"
      "gas" "elec" "n" 0).1 (by simp [ptExampleParams])
      ptExampleAssignment).mpr
      (by simp [ptExampleParams, ptExampleAssignment]; norm_num)
  · intro hsat
    have h := ((productionPerformance_linear_zeroEfficiency ptExampleParams "T"
      "gas" "heat" "n" 0).2 (by simp [ptExampleParams])
      ptExampleAssignment).mp hsat
    simp [ptExampleAssignment] at h

/-! ### C4 -/

/-- C4: for a transport technology declared bidirectional, the rule emits for
every edge and yearly time step the equality between the built capacity on the
edge and on its reversed edge, so both are equal in any feasible solution; for
a technology not declared bidirectional the rule is skipped, so any
combination of built capacities on an edge pair is feasible for it. -/
theorem bidirectionalTransport_builtCapacity (p : TTParams)
    (tech edge : String) (time : ℕ) :
    (tech ∈ p.setBidirectionalTransportTechnologies →
      constraintBidirectionalTransportTechnologyRule p tech edge time =
        Constr.eq (AffExpr.ofVar (TTVar.builtCapacity tech "power" edge time))
          (AffExpr.ofVar
            (TTVar.builtCapacity tech "power" (p.dictReversedEdges edge) time)) ∧
      ∀ x : TTVar → ℚ,
        Constr.sat x (constraintBidirectionalTransportTechnologyRule p tech edge time) →
          x (TTVar.builtCapacity tech "power" edge time) =
            x (TTVar.builtCapacity tech "power" (p.dictReversedEdges edge) time)) ∧
    (tech ∉ p.setBidirectionalTransportTechnologies →
      constraintBidirectionalTransportTechnologyRule p tech edge time =
        Constr.skip ∧
      (∀ x : TTVar → ℚ,
        Constr.sat x (constraintBidirectionalTransportTechnologyRule p tech edge time)) ∧
      (p.dictReversedEdges edge ≠ edge →
        ∀ a b : ℚ, ∃ x : TTVar → ℚ,
          Constr.sat x (constraintBidirectionalTransportTechnologyRule p tech edge time) ∧
          x (TTVar.builtCapacity tech "power" edge time) = a ∧
          x (TTVar.builtCapacity tech "power" (p.dictReversedEdges edge) time) = b)) := by
  constructor
  · intro hmem
    have hrule : constraintBidirectionalTransportTechnologyRule p tech edge time =
        Constr.eq (AffExpr.ofVar (TTVar.builtCapacity tech "power" edge time))
          (AffExpr.ofVar
            (TTVar.builtCapacity tech "power" (p.dictReversedEdges edge) time)) := by
      simp [constraintBidirectionalTransportTechnologyRule, hmem]
    refine ⟨hrule, fun x hx => ?_⟩
    rw [hrule] at hx
    simpa using hx
  · intro hmem
    have hrule : constraintBidirectionalTransportTechnologyRule p tech edge time =
        Constr.skip := by
      simp [constraintBidirectionalTransportTechnologyRule, hmem]
    refine ⟨hrule, fun x => by rw [hrule]; exact Constr.sat_skip x, fun hne a b => ?_⟩
    refine ⟨fun v => if v = TTVar.builtCapacity tech "power" edge time then a
      else if v = TTVar.builtCapacity tech "power" (p.dictReversedEdges edge) time then b
      else 0, ?_, ?_, ?_⟩
    · rw [hrule]; exact Constr.sat_skip _
    · simp
    · have : TTVar.builtCapacity tech "power" (p.dictReversedEdges edge) time ≠
          TTVar.builtCapacity tech "power" edge time := by
        intro hcontra
        exact hne (by injection hcontra)
      simp [this]

/-- Witness for C4 at a concrete input: for the declared-bidirectional
technology `pipe` the rule on edge `A-B` is the equality with edge `B-A`,
while for the undeclared technology `road` the rule is skipped. -/
theorem bidirectionalTransport_builtCapacity_witness :
    constraintBidirectionalTransportTechnologyRule ttBidirExample "pipe" "A-B" 0 =
      Constr.eq (AffExpr.ofVar (TTVar.builtCapacity "pipe" "power" "A-B" 0))
        (AffExpr.ofVar (TTVar.builtCapacity "pipe" "power" "B-A" 0)) ∧
    constraintBidirectionalTransportTechnologyRule ttBidirExample "road" "A-B" 0 =
      Constr.skip := by
  constructor
  · exact ((bidirectionalTransport_builtCapacity ttBidirExample "pipe" "A-B" 0).1
      (by simp [ttBidirExample])).1
  · exact ((bidirectionalTransport_builtCapacity ttBidirExample "road" "A-B" 0).2
      (by simp [ttBidirExample])).1

/-! ### C5 -/

/-- The edge loop succeeds exactly when every inspected edge has the same
existing-capacity series as its reversed edge. -/
theorem checkIfBidirectionalLoop_ok_iff (d : TransportInputData)
    (es : List String) :
    checkIfBidirectionalLoop d es = Except.ok () ↔
      ∀ e ∈ es, d.existingCapacity e =
        d.existingCapacity (d.calculateReversedEdge e) := by
  induction es with
  | nil => simp [checkIfBidirectionalLoop]
  | cons e rest ih =>
      by_cases h : d.existingCapacity e =
          d.existingCapacity (d.calculateReversedEdge e)
      · simp [checkIfBidirectionalLoop, h, ih]
      · simp [checkIfBidirectionalLoop, h]

/-- When the edge loop fails, the reported error names the technology and an
offending edge pair among the inspected edges. -/
theorem checkIfBidirectionalLoop_error (d : TransportInputData)
    (es : List String) (err : BidirectionalCapacityError)
    (h : checkIfBidirectionalLoop d es = Except.error err) :
    err.techName = d.name ∧ err.edge ∈ es ∧
      err.reversedEdge = d.calculateReversedEdge err.edge ∧
      d.existingCapacity err.edge ≠ d.existingCapacity err.reversedEdge := by
  induction es with
  | nil => simp [checkIfBidirectionalLoop] at h
  | cons e rest ih =>
      by_cases hc : d.existingCapacity e =
          d.existingCapacity (d.calculateReversedEdge e)
      · rw [checkIfBidirectionalLoop, if_pos hc] at h
        obtain ⟨h1, h2, h3, h4⟩ := ih h
        exact ⟨h1, List.mem_cons_of_mem e h2, h3, h4⟩
      · rw [checkIfBidirectionalLoop, if_neg hc] at h
        injection h with h2
        subst h2
        exact ⟨rfl, List.mem_cons_self e rest, rfl, hc⟩

/-- C5: when input data for a transport technology is stored, the
bidirectional existing-capacity consistency check runs exactly when the
technology is declared bidirectional: in that case it succeeds iff every edge
has the same existing-capacity series as its reversed edge, and on failure it
raises a data-consistency error whose message names the technology and the
offending edge pair; for an undeclared technology the check is not performed
at all. -/
theorem storeInputData_bidirectional_check (d : TransportInputData) :
    (d.name ∈ d.setBidirectionalTransportTechnologies →
      (storeInputDataBidirectionalCheck d = Except.ok () ↔
        ∀ e ∈ d.setEdges, d.existingCapacity e =
          d.existingCapacity (d.calculateReversedEdge e)) ∧
      ∀ err : BidirectionalCapacityError,
        storeInputDataBidirectionalCheck d = Except.error err →
          err.techName = d.name ∧ err.edge ∈ d.setEdges ∧
          err.reversedEdge = d.calculateReversedEdge err.edge ∧
          d.existingCapacity err.edge ≠ d.existingCapacity err.reversedEdge ∧
          bidirectionalErrorMessage err =
            String.append
              (String.append
                (String.append
                  (String.append
                    (String.append
                      "The existing capacities of the bidirectional transport technology "
                      d.name)
                    " are not equal on the edge pair ")
                  err.edge)
                " and ")
              err.reversedEdge) ∧
    (d.name ∉ d.setBidirectionalTransportTechnologies →
      storeInputDataBidirectionalCheck d = Except.ok ()) := by
  constructor
  · intro hmem
    have hrun : storeInputDataBidirectionalCheck d = checkIfBidirectional d := by
      simp [storeInputDataBidirectionalCheck, hmem]
    constructor
    · rw [hrun]
      exact checkIfBidirectionalLoop_ok_iff d d.setEdges
    · intro err herr
      rw [hrun] at herr
      obtain ⟨h1, h2, h3, h4⟩ := checkIfBidirectionalLoop_error d d.setEdges err herr
      refine ⟨h1, h2, h3, h4, ?_⟩
      rw [bidirectionalErrorMessage, h1]
  · intro hmem
    simp [storeInputDataBidirectionalCheck, hmem]

/-- Witness for C5 at a concrete input: the declared-bidirectional technology
`pipe` with existing capacity 1 on `A-B` but 2 on `B-A` makes the stored-data
check fail with an error naming `pipe` and the pair (A-B, B-A); the same data
under a technology name not declared bidirectional passes unchecked. -/
theorem storeInputData_bidirectional_check_witness :
    (BidirectionalCapacityError.techName
        { techName := "pipe", edge := "A-B", reversedEdge := "B-A" } =
        bdExample.name ∧
      "A-B" ∈ bdExample.setEdges ∧
      "B-A" = bdExample.calculateReversedEdge "A-B" ∧
      bdExample.existingCapacity "A-B" ≠ bdExample.existingCapacity "B-A" ∧
      bidirectionalErrorMessage
          { techName := "pipe", edge := "A-B", reversedEdge := "B-A" } =
        String.append
          (String.append
            (String.append
              (String.append
                (String.append
                  "The existing capacities of the bidirectional transport technology "
                  bdExample.name)
                " are not equal on the edge pair ")
              "A-B")
            " and ")
          "B-A") := by
  have h := ((storeInputData_bidirectional_check bdExample).1 (by simp [bdExample])).2
    { techName := "pipe", edge := "A-B", reversedEdge := "B-A" } rfl
  exact h

/-! ### C6 -/

/-- C6: counterexample to the claim as stated.  On an edge with infinite
distance, the emitted transport constraints (flow losses, capex and
bidirectionality) do NOT force the carrier flow to zero: the assignment with
carrier flow 5 (and zero loss and zero built capacity) satisfies every
constraint the three rules emit for that edge. -/
theorem transportInfiniteDistance_flow_unconstrained :
    Constr.sat ttInfiniteAssignment
      (constraintTransportTechnologyLossesFlowRule ttInfiniteExample "pipe" "A-B" 0) ∧
    Constr.sat ttInfiniteAssignment
      (constraintCapexTransportTechnologyRule ttInfiniteExample "pipe" "A-B" 0) ∧
    Constr.sat ttInfiniteAssignment
      (constraintBidirectionalTransportTechnologyRule ttInfiniteExample "pipe" "A-B" 0) ∧
    ttInfiniteAssignment (TTVar.carrierFlow "pipe" "A-B" 0) = 5 := by
  refine ⟨?_, ?_, ?_, ?_⟩
  · simp [Constr.sat, constraintTransportTechnologyLossesFlowRule,
      ttInfiniteExample, ttInfiniteAssignment]
  · simp [Constr.sat, constraintCapexTransportTechnologyRule,
      ttInfiniteExample, ttInfiniteAssignment]
  · simp [Constr.sat, constraintBidirectionalTransportTechnologyRule,
      ttInfiniteExample]
  · simp [ttInfiniteAssignment]

/-- C6 (amended): for an edge with infinite distance, the loss constraint
degenerates to carrierLoss == 0 and the capex rule instead forces the built
capacity on that edge to zero (the carrier flow itself is not directly
constrained by these rules); for finite distance, the loss constraint is
exactly carrierLoss == distance × loss-rate × flow and the capex constraint
is capex == built_capacity × specific capex + install-indicator × distance ×
capex-per-distance. -/
theorem transportDistance_constraints (p : TTParams) (tech edge : String)
    (time : ℕ) :
    (p.distance tech edge = Distance.infinite →
      constraintTransportTechnologyLossesFlowRule p tech edge time =
        Constr.eq (AffExpr.ofVar (TTVar.carrierLoss tech edge time))
          AffExpr.zero ∧
      constraintCapexTransportTechnologyRule p tech edge time =
        Constr.eq (AffExpr.ofVar (TTVar.builtCapacity tech "power" edge time))
          AffExpr.zero ∧
      ∀ x : TTVar → ℚ,
        Constr.sat x (constraintTransportTechnologyLossesFlowRule p tech edge time) →
        Constr.sat x (constraintCapexTransportTechnologyRule p tech edge time) →
          x (TTVar.carrierLoss tech edge time) = 0 ∧
          x (TTVar.builtCapacity tech "power" edge time) = 0) ∧
    (∀ d : ℚ, p.distance tech edge = Distance.val d →
      (∀ x : TTVar → ℚ,
        Constr.sat x (constraintTransportTechnologyLossesFlowRule p tech edge time) ↔
          x (TTVar.carrierLoss tech edge time) =
            d * p.lossFlow tech * x (TTVar.carrierFlow tech edge time)) ∧
      (∀ x : TTVar → ℚ,
        Constr.sat x (constraintCapexTransportTechnologyRule p tech edge time) ↔
          x (TTVar.capex tech "power" edge time) =
            x (TTVar.builtCapacity tech "power" edge time) *
                p.capexSpecificTransport tech edge time +
              x (TTVar.installTechnology tech "power" edge time) *
                (d * p.capexPerDistance tech edge time))) := by
  constructor
  · intro hdist
    have hloss : constraintTransportTechnologyLossesFlowRule p tech edge time =
        Constr.eq (AffExpr.ofVar (TTVar.carrierLoss tech edge time))
          AffExpr.zero := by
      rw [constraintTransportTechnologyLossesFlowRule, hdist]
    have hcapex : constraintCapexTransportTechnologyRule p tech edge time =
        Constr.eq (AffExpr.ofVar (TTVar.builtCapacity tech "power" edge time))
          AffExpr.zero := by
      rw [constraintCapexTransportTechnologyRule, hdist]
    refine ⟨hloss, hcapex, fun x hx1 hx2 => ?_⟩
    rw [hloss] at hx1
    rw [hcapex] at hx2
    constructor
    · simpa using hx1
    · simpa using hx2
  · intro d hdist
    constructor
    · intro x
      rw [constraintTransportTechnologyLossesFlowRule, hdist]
      simp [mul_assoc]
    · intro x
      rw [constraintCapexTransportTechnologyRule, hdist]
      simp only [Constr.sat_eq, AffExpr.eval_add, AffExpr.eval_smul,
        AffExpr.eval_ofVar]
      constructor
      · intro h
        rw [h]; ring
      · intro h
        rw [h]; ring

/-- Witness for C6 at a concrete finite-distance input: with distance 10,
loss rate 1/100, specific capex 3 and per-distance capex 2, the assignment
(flow 7, loss 7/10, built capacity 4, install 1, capex 32) satisfies the
emitted loss and capex constraints. -/
theorem transportDistance_constraints_witness :
    Constr.sat ttFiniteAssignment
      (constraintTransportTechnologyLossesFlowRule ttBidirExample "pipe" "A-B" 0) ∧
    Constr.sat ttFiniteAssignment
      (constraintCapexTransportTechnologyRule ttBidirExample "pipe" "A-B" 0) := by
  constructor
  · exact (((transportDistance_constraints ttBidirExample "pipe" "A-B" 0).2 10
      rfl).1 ttFiniteAssignment).mpr
      (by simp [ttFiniteAssignment, ttBidirExample]; norm_num)
  · exact (((transportDistance_constraints ttBidirExample "pipe" "A-B" 0).2 10
      rfl).2 ttFiniteAssignment).mpr
      (by simp [ttFiniteAssignment, ttBidirExample]; norm_num)

/-! ### C7 -/

/-- C7: when a transport technology's capex is extracted and double capex is
not configured: if `capexPerDistance` exists, the specific capex is derived as
capexPerDistance × distance (and the per-distance capex is then zeroed); if
only `capexSpecific` exists, the per-distance capex falls back to the default
zero (capexSpecific × 0.0); and if neither exists, an `AttributeError` is
raised whose message names the transport technology and the two missing
attributes. -/
theorem getCapexTransport_branches (d : CapexInputData)
    (h : d.doubleCapexTransport = false) :
    (d.existsCapexPerDistance = true →
      ∃ r : CapexResult, getCapexTransport d = Except.ok r ∧
        (∀ edge t, r.capexSpecific edge t =
          d.capexPerDistanceInput edge t * d.distance edge) ∧
        (∀ edge t, r.capexPerDistance edge t = 0) ∧
        (∀ edge t, r.fixedOpexSpecific edge t =
          d.fixedOpexSpecificInput edge t * d.distance edge)) ∧
    (d.existsCapexPerDistance = false → d.existsCapexSpecific = true →
      ∃ r : CapexResult, getCapexTransport d = Except.ok r ∧
        (∀ edge t, r.capexSpecific edge t = d.capexSpecificInput edge t) ∧
        (∀ edge t, r.capexPerDistance edge t = d.capexSpecificInput edge t * 0) ∧
        (∀ edge t, r.capexPerDistance edge t = 0)) ∧
    (d.existsCapexPerDistance = false → d.existsCapexSpecific = false →
      getCapexTransport d = Except.error { techName := d.name } ∧
      capexAttributeErrorMessage { techName := d.name } =
        String.append (String.append "The transport technology " d.name)
          " has neither capexPerDistance nor capexSpecific attribute.") := by
  refine ⟨?_, ?_, ?_⟩
  · intro h1
    refine ⟨⟨fun edge t => d.capexPerDistanceInput edge t * d.distance edge,
      fun edge t => (d.capexPerDistanceInput edge t * d.distance edge) * 0,
      fun edge t => d.fixedOpexSpecificInput edge t * d.distance edge⟩,
      ?_, fun edge t => rfl, fun edge t => by simp, fun edge t => rfl⟩
    simp [getCapexTransport, h, h1]
  · intro h1 h2
    refine ⟨⟨d.capexSpecificInput,
      fun edge t => d.capexSpecificInput edge t * 0,
      d.fixedOpexSpecificInput⟩,
      ?_, fun edge t => rfl, fun edge t => rfl, fun edge t => by simp⟩
    simp [getCapexTransport, h, h1, h2]
  · intro h1 h2
    exact ⟨by simp [getCapexTransport, h, h1, h2], rfl⟩

/-- Witness for C7 at a concrete input: with only `capexSpecific` present
(value 5), extraction succeeds, the specific capex is 5 and the per-distance
capex defaults to zero. -/
theorem getCapexTransport_branches_witness :
    (getCapexTransport capexSpecificOnlyExample).map
        (fun r => r.capexSpecific "A-B" 0) = Except.ok 5 ∧
    (getCapexTransport capexSpecificOnlyExample).map
        (fun r => r.capexPerDistance "A-B" 0) = Except.ok 0 := by
  obtain ⟨r, hr, hspec, _, hzero⟩ :=
    (getCapexTransport_branches capexSpecificOnlyExample rfl).2.1 rfl rfl
  rw [hr]
  constructor
  · simp [Except.map, hspec "A-B" 0, capexSpecificOnlyExample]
  · simp [Except.map, hzero "A-B" 0]

/-! ### C8 -/

/-- C8: counterexample to the claim as stated.  Saving a concrete variable
table with `saveVar` and then calling `loadVar` does not reproduce the table:
`saveVar` writes `varDict.json` while `loadVar` reads `varDict.pickle`, so on
a fresh output directory the load fails with a missing-file error instead of
returning the saved mapping. -/
theorem saveVar_loadVar_counterexample :
    loadVar (saveVar varTableExample []) =
      Except.error (LoadError.fileNotFound "varDict.pickle") ∧
    loadVar (saveVar varTableExample []) ≠ Except.ok varTableExample := by
  have h : loadVar (saveVar varTableExample []) =
      Except.error (LoadError.fileNotFound "varDict.pickle") := rfl
  refine ⟨h, ?_⟩
  rw [h]
  simp

/-- C8 (amended): load-after-save is not the identity on the persisted
variable table.  `saveVar` writes the table to `varDict.json` with each index
tuple rendered as a string, while `loadVar` reads `varDict.pickle`, a file
`saveVar` never writes; on a store with no pre-existing `varDict.pickle`,
`loadVar` after `saveVar` fails with a file-not-found error.  The pickle
round-trip that does reproduce the index-tuple-to-value mapping exactly is
`saveResults` followed by `loadVar`. -/
theorem saveVar_loadVar_no_roundtrip (t : VarTable) (fs : FileStore)
    (h : FileStore.read fs "varDict.pickle" = none) :
    loadVar (saveVar t fs) =
      Except.error (LoadError.fileNotFound "varDict.pickle") ∧
    FileStore.read (saveVar t fs) "varDict.json" =
      some (FileContent.jsonVarDict (serializeVarTable t)) ∧
    loadVar (saveResults t fs) = Except.ok t := by
  have hf : List.find? (fun p => p.1 == "varDict.pickle") fs = none := by
    simpa [FileStore.read, Option.map_eq_none'] using h
  refine ⟨?_, ?_, ?_⟩
  · simp [loadVar, saveVar, FileStore.write, FileStore.read, List.find?, hf]
  · simp [saveVar, FileStore.write, FileStore.read, List.find?]
  · simp [loadVar, saveResults, FileStore.write, FileStore.read, List.find?]

/-- Witness for C8 at a concrete input: on an empty output directory (which
has no `varDict.pickle`), the pickle-based `saveResults`/`loadVar` pair does
reproduce the saved table. -/
theorem saveVar_loadVar_no_roundtrip_witness :
    FileStore.read [] "varDict.pickle" = none ∧
    loadVar (saveResults varTableExample []) = Except.ok varTableExample :=
  ⟨rfl, (saveVar_loadVar_no_roundtrip varTableExample [] rfl).2.2⟩

/-! ### C9 -/

/-- C9: on every execution path (whichever value the `postprocess` analysis
flag has), constructing a `Postprocess` object writes exactly the parameter
table (`paramDict.json`), the time-step sequence mapping
(`dictAllSequenceTimeSteps.json` and `.pickle`) and the variable table
(`varDict.json`), then terminates the whole process via `exit(0)`; the
system/analysis configuration snapshots (`System.pickle`, `Analysis.pickle`)
are never written, and everything after the `exit` call is unreachable. -/
theorem postprocessInit_saves_then_exits (postprocessFlag : Bool) :
    runInitSteps (postprocessInitSteps postprocessFlag) =
      (["paramDict.json", "dictAllSequenceTimeSteps.json",
        "dictAllSequenceTimeSteps.pickle", "varDict.json"],
        InitOutcome.exited 0) ∧
    "System.pickle" ∉ (runInitSteps (postprocessInitSteps postprocessFlag)).1 ∧
    "Analysis.pickle" ∉ (runInitSteps (postprocessInitSteps postprocessFlag)).1 := by
  cases postprocessFlag <;> exact ⟨rfl, by decide, by decide⟩

/-! ### C10 -/

/-- C10: every transport flow variable (`carrierFlow`) and transport loss
variable (`carrierLoss`) of both repository generations, and every
conversion-technology input and output stream variable, is declared over the
non-negative reals, so any assignment respecting the declared domains gives
all these quantities values greater than or equal to zero. -/
theorem flowVariables_nonnegative (x : String → List String → ℚ)
    (h : respectsDomains flowAndStreamVarDecls x) :
    (∀ d ∈ flowAndStreamVarDecls, d.domain = VarDomain.NonNegativeReals) ∧
    ∀ idx : List String,
      0 ≤ x "carrierFlow" idx ∧ 0 ≤ x "carrierLoss" idx ∧
      0 ≤ x "inputProductionTechnologies" idx ∧
      0 ≤ x "outputProductionTechnologies" idx := by
  constructor
  · decide
  · intro idx
    refine ⟨?_, ?_, ?_, ?_⟩
    · exact h ⟨"carrierFlow",
        ["setTransportTechnologies", "setEdges", "setTimeStepsOperation"],
        VarDomain.NonNegativeReals⟩ (by decide) idx
    · exact h ⟨"carrierLoss",
        ["setTransportTechnologies", "setEdges", "setTimeStepsOperation"],
        VarDomain.NonNegativeReals⟩ (by decide) idx
    · exact h ⟨"inputProductionTechnologies",
        ["setInputCarriers", "setProductionTechnologies", "setNodes", "setTimeSteps"],
        VarDomain.NonNegativeReals⟩ (by decide) idx
    · exact h ⟨"outputProductionTechnologies",
        ["setOutputCarriers", "setProductionTechnologies", "setNodes", "setTimeSteps"],
        VarDomain.NonNegativeReals⟩ (by decide) idx

/-- Witness for C10 at a concrete input: the constant assignment 1 respects
every declared domain, and the theorem yields 0 ≤ 1 for the carrier-flow
variable. -/
theorem flowVariables_nonnegative_witness :
    0 ≤ (fun (_ : String) (_ : List String) => (1 : ℚ)) "carrierFlow" [] := by
  have h : respectsDomains flowAndStreamVarDecls (fun _ _ => 1) := by
    intro d hd idx
    have hdom : d.domain = VarDomain.NonNegativeReals := by
      fin_cases hd <;> rfl
    rw [hdom]
    exact zero_le_one
  exact ((flowVariables_nonnegative (fun _ _ => 1) h).2 []).1
